import Mathlib

/-
Verification development for the cdf_2023 assembly planner.

Shallow embedding of:
  * src/cdf_2023/assembly/assembly.py — the assembly graph, the placement
    operation `add_rf_unit_element`, the connector transition table
    `update_connectors_states`, `close_rf_unit`, `range_filter`, and the
    incremental `static_equilibrium_check`;
  * src/cdf_2023/robot/base_map.py — the base-pose reachability scoring
    `get_reuleaux_index_by_base_pose`.

Conventions of the embedding:
  * Python floats are modelled as exact rationals (ℚ).
  * The CAD geometry kernel (Rhino/compas frames, rigid transforms, brep
    volumes, point-in-surface tests, KD-trees) is an external collaborator;
    it enters the model either as an explicit function parameter (the
    footprint membership oracle, the change-of-basis transform) or through
    exact rational point arithmetic (squared Euclidean distances, which
    order-embed the kernel's true distances).
  * Python exceptions (KeyError, UnboundLocalError, StatisticsError,
    ZeroDivisionError, ValueError) are modelled with explicit error values.
    Mutating methods return the object state together with an optional
    error, so that "state at the moment the exception surfaced" is
    observable, exactly as it is on the mutated Python object.
-/

namespace Cdf

/-- Attribute values stored in node attribute dictionaries. -/
inductive AttrVal where
  | str (s : String)
  | bool (b : Bool)
  | nat (n : Nat)
  | null
  deriving DecidableEq, Repr

/-- A Python dict with string keys, as an insertion-ordered association list. -/
abbrev Dict := List (String × AttrVal)

/-- Python `d[k] = v`: overwrite in place if the key exists, else append. -/
def dictSet (d : Dict) (k : String) (v : AttrVal) : Dict :=
  if d.any (fun p => p.1 == k) then
    d.map (fun p => if p.1 == k then (k, v) else p)
  else d ++ [(k, v)]

/-- Python `d.update(kw)`: fold `dictSet` over the other dict's items. -/
def dictUpdate (d kw : Dict) : Dict :=
  kw.foldl (fun acc p => dictSet acc p.1 p.2) d

/-- Python `d.get(k)`. -/
def dictGet (d : Dict) (k : String) : Option AttrVal :=
  (d.find? (fun p => p.1 == k)).map Prod.snd

/-- Modelled from the spec: the `Element` class lives in
`src/cdf_2023/assembly/element.py`, which is not part of the provided
sources; the spec describes it as "a placed unit with a pose, two
connectors, and identity/material metadata", its connector states being
"booleans, open=true".  Only the two connector state booleans are modelled
here — the pose, the two connector frames and the centerline belong to the
external geometry kernel and are not read by any property proved below. -/
structure Element where
  connector_1_state : Bool
  connector_2_state : Bool
  deriving DecidableEq, Repr

/-- One node of the assembly network: the stored element object plus the
node attribute record. -/
structure NodeRec where
  element : Element
  attrs : Dict
  deriving DecidableEq, Repr

/-- One directed edge of the assembly network with its `edge_to` tag. -/
structure EdgeRec where
  u : Nat
  v : Nat
  edge_to : String
  deriving DecidableEq, Repr

/-- The assembly state: network nodes (the integer key of a node is its list
index; keys are assigned by insertion order, matching compas
`Network.add_node(key=None)` on a contiguously keyed network), network
edges, and the dictionary object behind `add_element`'s mutable default
argument `attr_dict={}` (Python evaluates the default once, so every call
that omits `attr_dict` reads and mutates this one shared dict). -/
structure AssemblyState where
  nodes : List NodeRec
  edges : List EdgeRec
  sharedDefault : Dict
  deriving DecidableEq, Repr

/-- `Assembly.add_element(element, key=None, attr_dict={}, **kwattr)`:
`attr_dict.update(kwattr)` runs first (mutating the shared default dict when
the caller omitted `attr_dict`), then the node is added with a snapshot of
the resulting attribute dict.  Returns the new state and the new key. -/
def add_element (s : AssemblyState) (element : Element)
    (attr_dict : Option Dict) (kwattr : Dict) : AssemblyState × Nat :=
  match attr_dict with
  | some d =>
    let d1 := dictUpdate d kwattr
    ({ s with nodes := s.nodes ++ [⟨element, d1⟩] }, s.nodes.length)
  | none =>
    let d1 := dictUpdate s.sharedDefault kwattr
    ({ s with nodes := s.nodes ++ [⟨element, d1⟩], sharedDefault := d1 },
     s.nodes.length)

/-- List map with the element's index passed to the function. -/
def mapIdxAux (f : Nat → α → α) : Nat → List α → List α
  | _, [] => []
  | i, a :: l => f i a :: mapIdxAux f (i + 1) l

/-- Read the element object stored at a node key (`network.node[k]['element']`). -/
def elemAt (s : AssemblyState) (k : Nat) : Option Element :=
  (s.nodes.get? k).map (·.element)

/-- Mutate the element object stored at a node key in place. -/
def setElem (s : AssemblyState) (k : Nat) (f : Element → Element) : AssemblyState :=
  { s with nodes := mapIdxAux (fun j n => if j = k then { n with element := f n.element } else n) 0 s.nodes }

/-- Close one of the two connectors of an element
(`element.connector_i_state = False`). -/
def closeConn (which : Nat) (e : Element) : Element :=
  if which = 1 then { e with connector_1_state := false }
  else { e with connector_2_state := false }

/-- The flip-code sign table of `add_rf_unit_element` (lines 206–215):
`AA → (0,0)`, `AB → (0,c)`, `BA → (c,0)`, `BB → (c,c)`; an unlisted flip
code leaves both `a` and `b` unassigned (Python: reading them later raises
`UnboundLocalError`), encoded as `none`. -/
def flipAB (flip : String) (c : Int) : Option (Int × Int) :=
  if flip = "AA" then some (0, 0)
  else if flip = "AB" then some (0, c)
  else if flip = "BA" then some (c, 0)
  else if flip = "BB" then some (c, c)
  else none

/-- Connector transition table, `current_elem.connector_2_state` branch of
`update_connectors_states` (lines 506–518): flip code ↦ (connector closed on
the previous element, connector closed on the new element). -/
def tableConn2 (flip : String) : Option (Nat × Nat) :=
  if flip = "AA" then some (2, 2)
  else if flip = "AB" then some (2, 1)
  else if flip = "BA" then some (1, 2)
  else if flip = "BB" then some (1, 1)
  else none

/-- Connector transition table, `current_elem.connector_1_state` branch of
`update_connectors_states` (lines 519–531). -/
def tableConn1 (flip : String) : Option (Nat × Nat) :=
  if flip = "AA" then some (1, 1)
  else if flip = "AB" then some (1, 2)
  else if flip = "BA" then some (2, 1)
  else if flip = "BB" then some (2, 2)
  else none

/-- Apply one transition-table entry: close the designated connector on the
previous element, then on the new element (no entry: no mutation). -/
def applyTable (s : AssemblyState) (prevIdx newIdx : Nat)
    (t : Option (Nat × Nat)) : AssemblyState :=
  match t with
  | none => s
  | some pn => setElem (setElem s prevIdx (closeConn pn.1)) newIdx (closeConn pn.2)

/-- Python errors surfaced by the assembly operations: `KeyError` /
`IndexError` on a missing node or on `keys[-2]` of a too-short network, and
`UnboundLocalError` on reading a local never assigned. -/
inductive RfErr where
  | keyError
  | unboundLocal
  deriving DecidableEq, Repr

/-- `Assembly.update_connectors_states(current_key, flip, my_new_elem,
unit_index)` (lines 498–531).  `newIdx` is the node index of the object
passed as `my_new_elem` (always the just-added node when called from
`add_rf_unit_element`).  The current element is looked up first, then
`keys[-2]` selects the second-to-last node as the previous element.  Both
`if` blocks are tested sequentially (not `elif`), and the second block
re-reads the current element's state, which matters when `current_key`
aliases the previous node. -/
def update_connectors_states (s : AssemblyState) (current_key : Nat)
    (flip : String) (newIdx : Nat) (unit_index : Nat) : AssemblyState × Option RfErr :=
  match elemAt s current_key with
  | none => (s, some RfErr.keyError)
  | some _ =>
    if s.nodes.length < 2 then (s, some RfErr.keyError)
    else
      let prevIdx := s.nodes.length - 2
      if unit_index = 1 then
        let cur2 := ((elemAt s current_key).map (·.connector_2_state)).getD false
        let s1 := if cur2 then applyTable s prevIdx newIdx (tableConn2 flip) else s
        let cur1 := ((elemAt s1 current_key).map (·.connector_1_state)).getD false
        let s2 := if cur1 then applyTable s1 prevIdx newIdx (tableConn1 flip) else s1
        (s2, none)
      else (s, none)

/-- Model of compas `Network.add_edge(u, v, edge_to=tag)`: the network
stores edges in an adjacency dict `edge[u][v]`, so adding an ordered key
pair that already exists merges the new attributes into the existing edge
(here: overwrites its `edge_to` tag) instead of creating a parallel edge;
a new pair is appended.  The source's `add_edge` also auto-inserts missing
endpoint nodes; every call site in the embedded operations passes
endpoints that already exist (`current_key < N`, `N - 1 < N`, and `N` the
just-added node), so that branch is not modelled. -/
def addEdge (s : AssemblyState) (u v : Nat) (tag : String) : AssemblyState :=
  if s.edges.any (fun e => e.u == u && e.v == v) then
    { s with edges := s.edges.map (fun e =>
        if e.u == u && e.v == v then { e with edge_to := tag } else e) }
  else
    { s with edges := s.edges ++ [⟨u, v, tag⟩] }

/-- Node and edge insertion stage of `add_rf_unit_element` (lines 239–246):
insert the new element through `add_element` (which routes its keyword
attributes through the shared mutable default dict), then add the edges
keyed on `N = number_of_nodes()` taken before the insertion — one
`neighbour` edge for `unit_index == 0`, two `add_edge(·, N, 'parent')`
calls otherwise (which collapse to a single stored edge when
`current_key = N - 1`, both calls then targeting the same ordered key
pair). -/
def addRfNodeEdges (s : AssemblyState) (current_key N : Nat) (placed_by : String)
    (on_ground : Bool) (unit_index : Nat) (frame_id frame_est : AttrVal)
    (new_elem : Element) : AssemblyState :=
  let kw : Dict :=
    [("placed_by", AttrVal.str placed_by), ("on_ground", AttrVal.bool on_ground),
     ("frame_id", frame_id), ("frame_est", frame_est), ("is_built", AttrVal.bool true)]
  let s1 := (add_element s new_elem none kw).1
  if unit_index = 0 then
    addEdge s1 current_key N "neighbour"
  else
    addEdge (addEdge s1 (N - 1) N "parent") current_key N "parent"

/-- Terminal guard of `add_rf_unit_element` (lines 250–254): when
`unit_index == 1`, force-close whichever connector of the current element
is open, re-reading its state after the transition table ran (the current
element may alias the previous element). -/
def addRfFinish (s3 : AssemblyState) (current_key unit_index : Nat) : AssemblyState :=
  if unit_index = 1 then
    let cur1 := ((elemAt s3 current_key).map (·.connector_1_state)).getD false
    if cur1 then setElem s3 current_key (closeConn 1)
    else setElem s3 current_key (closeConn 2)
  else s3

/-- Mutation pipeline of `add_rf_unit_element` after the flip table
resolved: node/edge insertion, connector transition, terminal guard. -/
def addRfInsert (s : AssemblyState) (current_key N : Nat) (flip placed_by : String)
    (on_ground : Bool) (unit_index : Nat) (frame_id frame_est : AttrVal)
    (new_elem : Element) : AssemblyState × Option RfErr :=
  let s2 := addRfNodeEdges s current_key N placed_by on_ground unit_index
              frame_id frame_est new_elem
  let r3 := update_connectors_states s2 current_key flip N unit_index
  match r3.2 with
  | some e => (r3.1, some e)
  | none => (addRfFinish r3.1 current_key unit_index, none)

/-- `Assembly.add_rf_unit_element` (lines 186–256), with the geometry
abstracted away: the reads of `self.globals`, the connector frame, the
rotations `R1`, `R2` and translations `T1`, `T3` only produce the new
element's pose, which no proved property reads; the new element is a copy
of the current one (`current_elem.copy()`), carrying its connector states.
Faithfully kept: the open-connector selection (prefer connector 1, else
fall back to connector 2 — there is no failure when both are closed), the
flip sign table (an invalid flip leaves `a`/`b` unassigned, and line 221 —
or 224, depending on `placed_by` — then raises `UnboundLocalError` before
any graph mutation), then the mutation pipeline `addRfInsert`. -/
def add_rf_unit_element (s : AssemblyState) (current_key : Nat) (flip : String)
    (placed_by : String) (on_ground : Bool) (unit_index : Nat)
    (frame_id frame_est : AttrVal) : AssemblyState × Option RfErr :=
  let N := s.nodes.length
  match elemAt s current_key with
  | none => (s, some RfErr.keyError)
  | some current_elem =>
    let c : Int := if current_elem.connector_1_state then -1 else 1
    match flipAB flip c with
    | none => (s, some RfErr.unboundLocal)
    | some _ab =>
      addRfInsert s current_key N flip placed_by on_ground unit_index
        frame_id frame_est current_elem

/-- `Assembly.close_rf_unit` (lines 460–480): two placements on the same
current key, first `placed_by='robot', unit_index=0`, then
`placed_by='human', unit_index=1`.  If the second call raises, the first
call's mutations persist (Python exception semantics on the mutated
object). -/
def close_rf_unit (s : AssemblyState) (current_key : Nat) (flip : String)
    (added_frame_id frame_est : AttrVal) : AssemblyState × Option RfErr :=
  let r1 := add_rf_unit_element s current_key flip "robot" false 0 AttrVal.null AttrVal.null
  match r1.2 with
  | some e => (r1.1, some e)
  | none => add_rf_unit_element r1.1 current_key flip "human" false 1 added_frame_id frame_est

/-- Per-node body of `range_filter` (lines 551–561): if connector 1 is
open, close it when its distance to the base frame leaves `[0.75, 1.3]`;
`elif` connector 2 is open, likewise; else pass. -/
def rangeBody (d1 d2 : Nat → ℚ) (k : Nat) (n : NodeRec) : NodeRec :=
  if n.element.connector_1_state then
    if ¬((3 : ℚ)/4 ≤ d1 k ∧ d1 k ≤ 13/10) then
      { n with element := closeConn 1 n.element }
    else n
  else if n.element.connector_2_state then
    if ¬((3 : ℚ)/4 ≤ d2 k ∧ d2 k ≤ 13/10) then
      { n with element := closeConn 2 n.element }
    else n
  else n

/-- `Assembly.range_filter(base_frame)` (lines 545–561): disable connectors
outside the robot reach window `[0.75, 1.3]`.  The distance of each
element's connector frame origin to the base frame is geometry-kernel data,
supplied here as the oracles `d1`, `d2` indexed by node key. -/
def range_filter (s : AssemblyState) (d1 d2 : Nat → ℚ) : AssemblyState :=
  { s with nodes := mapIdxAux (rangeBody d1 d2) 0 s.nodes }

/-- One build-session operation over the assembly (the operations named by
the connector-monotonicity property). -/
inductive SessionOp where
  | addRf (current_key : Nat) (flip placed_by : String) (on_ground : Bool)
      (unit_index : Nat) (frame_id frame_est : AttrVal)
  | closeRf (current_key : Nat) (flip : String) (added_frame_id frame_est : AttrVal)
  | updateConn (current_key : Nat) (flip : String) (newIdx unit_index : Nat)
  | rangeFilter (d1 d2 : Nat → ℚ)

/-- Run one session operation; a raised error leaves the state as it was at
the moment of the raise (the returned partial state). -/
def applyOp (op : SessionOp) (s : AssemblyState) : AssemblyState :=
  match op with
  | SessionOp.addRf ck f pb og ui fi fe => (add_rf_unit_element s ck f pb og ui fi fe).1
  | SessionOp.closeRf ck f afi fe => (close_rf_unit s ck f afi fe).1
  | SessionOp.updateConn ck f ni ui => (update_connectors_states s ck f ni ui).1
  | SessionOp.rangeFilter d1 d2 => range_filter s d1 d2

/-- Run a whole session: a sequence of assembly operations. -/
def runSession (ops : List SessionOp) (s : AssemblyState) : AssemblyState :=
  ops.foldl (fun st op => applyOp op st) s

/-- Whether connector 1 of node `k` is open (missing node: closed). -/
def connOpen1 (s : AssemblyState) (k : Nat) : Bool :=
  (((s.nodes.get? k).map (·.element.connector_1_state)).getD false)

/-- Whether connector 2 of node `k` is open (missing node: closed). -/
def connOpen2 (s : AssemblyState) (k : Nat) : Bool :=
  (((s.nodes.get? k).map (·.element.connector_2_state)).getD false)

/-- Connector monotonicity between two assembly states: nodes are never
removed, and on every node already present in the earlier state, a
connector open in the later state was already open in the earlier state —
i.e. no connector ever transitions closed → open. -/
def ConnMono (s s1 : AssemblyState) : Prop :=
  s.nodes.length ≤ s1.nodes.length ∧
  ∀ k, k < s.nodes.length →
    (connOpen1 s1 k = true → connOpen1 s k = true) ∧
    (connOpen2 s1 k = true → connOpen2 s k = true)

/-
Static equilibrium validator, `Assembly.static_equilibrium_check`
(lines 387–457).  The geometry kernel supplies, for each entry of the
scanned list `e = [support] + built-element breps + option brep`, its
volume and planar centroid, and answers the `rs.IsPointInSurface` test for
the extruded support footprint; the embedding therefore takes the list of
planar centroids with volumes, and the footprint membership oracle `sa`.
The Python locals `s_glob` and `s_int` are assigned only on some paths, so
they are modelled as `Option` values whose unbound read raises.
-/

/-- Python errors surfaced by `static_equilibrium_check`:
`UnboundLocalError` on `s_glob` (line 438, never assigned when the function
is entered with `allow_temp_support=False`), on `s_int` (line 439) and on
`res` (line 454, loop never ran), and `ZeroDivisionError` on a zero running
volume (lines 432–433). -/
inductive SeErr where
  | sGlobUnbound
  | sIntUnbound
  | resUnbound
  | zeroDivision
  deriving DecidableEq, Repr

/-- Loop state of the incremental scan: running moment sums, running volume
sum, loop index, the `static_equilibrium` flag, the (mutated)
`allow_temp_support` flag, the possibly-unbound locals `s_glob` and `s_int`,
and the last computed resultant point. -/
structure SeState where
  res_pos_x : ℚ
  res_pos_y : ℚ
  sum_vol : ℚ
  i : Nat
  static_equilibrium : Bool
  allow_temp : Bool
  s_glob : Option Bool
  s_int : Option Nat
  res : Option (ℚ × ℚ)
  deriving DecidableEq, Repr

/-- One iteration of the scan (loop body, lines 426–452), for the element
with planar centroid `cv.1` and volume `cv.2`. -/
def seStep (sa : ℚ → ℚ → Bool) (st : SeState) (cv : (ℚ × ℚ) × ℚ) : Except SeErr SeState :=
  let rpx := st.res_pos_x + cv.1.1 * cv.2
  let rpy := st.res_pos_y + cv.1.2 * cv.2
  let sv := st.sum_vol + cv.2
  if sv = 0 then Except.error SeErr.zeroDivision
  else
    let rx := rpx / sv
    let ry := rpy / sv
    let se_loc := sa rx ry
    match st.s_glob with
    | none => Except.error SeErr.sGlobUnbound
    | some g =>
      let at1E : Except SeErr Bool :=
        if g = true ∧ st.allow_temp = false then
          match st.s_int with
          | none => Except.error SeErr.sIntUnbound
          | some si => Except.ok (if st.i > si + 1 then true else st.allow_temp)
        else Except.ok st.allow_temp
      match at1E with
      | Except.error e => Except.error e
      | Except.ok at1 =>
        let eq1 := if se_loc = false then true else st.static_equilibrium
        let eq2 := if se_loc = true ∧ at1 = false then false else eq1
        let step3 : Bool × Bool × Option Nat :=
          if se_loc = true ∧ at1 = true then (true, false, some st.i)
          else (eq2, at1, st.s_int)
        Except.ok ⟨rpx, rpy, sv, st.i + 1, step3.1, step3.2.1, st.s_glob, step3.2.2,
                   some (rx, ry)⟩

/-- Fold the scan over the whole element list. -/
def seLoop (sa : ℚ → ℚ → Bool) : SeState → List ((ℚ × ℚ) × ℚ) → Except SeErr SeState
  | st, [] => Except.ok st
  | st, cv :: rest =>
    match seStep sa st cv with
    | Except.error e => Except.error e
    | Except.ok st1 => seLoop sa st1 rest

/-- `Assembly.static_equilibrium_check(support, option_elems,
allow_temp_support)`: returns the `static_equilibrium` flag, the last
resultant point and — exposed for the temporary-support property — the
latched grant index `s_int` (`none` when the window was never latched).
`cenvol` lists the planar centroid and volume of every scanned entry in
order (the support footprint itself first, then the built elements, then
the option element, as assembled on lines 411–418). -/
def static_equilibrium_check (sa : ℚ → ℚ → Bool) (cenvol : List ((ℚ × ℚ) × ℚ))
    (allow_temp_support : Bool) : Except SeErr (Bool × (ℚ × ℚ) × Option Nat) :=
  let init : SeState :=
    ⟨0, 0, 0, 0, false, allow_temp_support,
     (if allow_temp_support = true then some true else none), none, none⟩
  match seLoop sa init cenvol with
  | Except.error e => Except.error e
  | Except.ok st =>
    match st.res with
    | none => Except.error SeErr.resUnbound
    | some r => Except.ok (st.static_equilibrium, r, st.s_int)

/-
Reachability scoring, `BaseMap.get_reuleaux_index_by_base_pose`
(src/cdf_2023/robot/base_map.py, lines 40–96).  Points carry exact rational
coordinates; the compas KD-tree's Euclidean distances are represented by
squared distances, which induce the same ordering, and every comparison of
a distance `d ≥ 0` against a bound `t` is encoded as `0 < t ∧ d² < t²`,
which is equivalent to `d < t`.
-/

/-- A 3D point with rational coordinates. -/
abbrev Q3 := ℚ × ℚ × ℚ

/-- Squared Euclidean distance between two points. -/
def dsq (p q : Q3) : ℚ :=
  (p.1 - q.1) ^ 2 + (p.2.1 - q.2.1) ^ 2 + (p.2.2 - q.2.2) ^ 2

/-- Exact encoding of the kernel comparison `dist < t` for a distance whose
square is `dSq`: true iff `t` is positive and `dSq < t²`. -/
def ltDist (dSq t : ℚ) : Prop := 0 < t ∧ dSq < t ^ 2

instance (dSq t : ℚ) : Decidable (ltDist dSq t) := by
  unfold ltDist; infer_instance

/-- Model of `kdtree.nearest_neighbors(pt, 2, distance_sort=True)` on the
list of sample points: the indices and squared distances of the two nearest
points, sorted by distance (ties resolved towards the earlier index);
`none` when the list holds fewer than two points (the Python call cannot
deliver two neighbours there). -/
def nearestTwo (pts : List Q3) (pt : Q3) : Option ((Nat × ℚ) × (Nat × ℚ)) :=
  match (pts.enum.map (fun pi => (pi.1, dsq pi.2 pt))) with
  | [] => none
  | [_] => none
  | x :: y :: rest =>
    let init := if y.2 < x.2 then (y, x) else (x, y)
    some (rest.foldl (fun best z =>
      if z.2 < best.1.2 then (z, best.1)
      else if z.2 < best.2.2 then (best.1, z)
      else best) init)

/-- Reachability index of the sample at a given list index (`spheres[i].ri`). -/
def riAt (samples : List (Q3 × ℚ)) (i : Nat) : ℚ :=
  ((samples.get? i).map Prod.snd).getD 0

/-- Per-target-point scoring rule of `get_reuleaux_index_by_base_pose`
(lines 60–70 for goal points, identically lines 75–81 for collision
points): take the two nearest transformed samples; if both lie within
`resolution * 1.415` of the target, the point scores the nearest sample's
`ri` and is reachable, otherwise it scores `0` and is unreachable.
Returns `none` when fewer than two samples exist (the Python indexing
`d[1]` fails there). -/
def scorePoint (samples : List (Q3 × ℚ)) (resolution : ℚ) (pt : Q3) :
    Option (ℚ × Bool) :=
  match nearestTwo (samples.map Prod.fst) pt with
  | none => none
  | some nn =>
    if ltDist nn.1.2 (resolution * 1.415) ∧ ltDist nn.2.2 (resolution * 1.415) then
      some (riAt samples nn.1.1, true)
    else some (0, false)

/-- Python `statistics.mean`: arithmetic mean, raising on an empty list
(`none`). -/
def pyMean (xs : List ℚ) : Option ℚ :=
  if xs = [] then none else some (xs.sum / (xs.length : ℚ))

/-- The aggregate-score formula of lines 83–86 for the collision-supplied
branch: `goal_ri_mean = mean(goal)`, `collision_ri_mean = mean(coll)`,
`ri_mean = mean([goal_ri_mean]*len(goal) + [-collision_ri_mean]*len(coll))`;
`none` when either `mean` raises `StatisticsError`. -/
def riMeanCode (goalIdx collIdx : List ℚ) : Option ℚ :=
  match pyMean goalIdx with
  | none => none
  | some g =>
    match pyMean collIdx with
    | none => none
    | some c =>
      pyMean (List.replicate goalIdx.length g ++ List.replicate collIdx.length (-c))

/-- Reference definition, written from the spec's words: the
equal-per-point-weight mean, "(sum of goal indices − sum of collision
indices) divided by (number of goal points + number of collision
points)". -/
def riMeanSpec (goalIdx collIdx : List ℚ) : ℚ :=
  (goalIdx.sum - collIdx.sum) / ((goalIdx.length : ℚ) + (collIdx.length : ℚ))

/-- One entry of the base-pose map: the candidate pose's point and its
stored mean reachability score (detail record elided). -/
structure BmEntry where
  point : Q3
  score : Option ℚ
  deriving DecidableEq, Repr

/-- Model of `self.kdtree.nearest_neighbor(pose.point)` on the base map:
index and squared distance of the nearest stored pose; `none` on an empty
map (where the Python KD-tree query cannot return a neighbour). -/
def bmNearest (bm : List BmEntry) (p : Q3) : Option (Nat × ℚ) :=
  match bm.enum.map (fun ei => (ei.1, dsq ei.2.point p)) with
  | [] => none
  | x :: rest =>
    some (rest.foldl (fun best z => if z.2 < best.2 then z else best) x)

/-- Overwrite the stored score of base-map entry `i` in place
(`node_attribute(id, 'mean_reuleaux_index', ri_mean)`). -/
def setScore (bm : List BmEntry) (i : Nat) (r : ℚ) : List BmEntry :=
  mapIdxAux (fun j e => if j = i then { e with score := some r } else e) 0 bm

/-- Python errors surfaced by `get_reuleaux_index_by_base_pose`: the
`ValueError` raised on `resolution == 0` (line 43), the failing KD-tree
query on an empty base map (line 45), the failing two-neighbour query on a
dataset with fewer than two spheres (lines 58, 74), and
`statistics.StatisticsError` on a mean over an empty score list
(lines 83–86). -/
inductive BmErr where
  | resolutionZero
  | emptyBaseMap
  | tooFewSamples
  | statisticsError
  deriving DecidableEq, Repr

/-- Successful result of `get_reuleaux_index_by_base_pose`: the returned
map key and the `reuleaux_data` scoring detail. -/
structure BmRet where
  id : Nat
  goalIdx : List ℚ
  collIdx : List ℚ
  reachable : List Bool
  riMean : ℚ
  deriving DecidableEq, Repr

/-- `BaseMap.get_reuleaux_index_by_base_pose(pose, reuleaux,
goal_pointcloud, collision_pointcloud)` (lines 40–96).  `T` is the
geometry-kernel change-of-basis transform applied to the dataset's sample
points; `spheres` pairs each sample point with its `ri`.  The function
returns the (possibly updated) base map together with the result or the
raised error; on an error the map is exactly the input map, matching the
source where the only map mutations (lines 90–94) happen last. -/
def get_reuleaux_index_by_base_pose (bm : List BmEntry) (posePt : Q3)
    (T : Q3 → Q3) (spheres : List (Q3 × ℚ)) (resolution : ℚ)
    (goalPts : List Q3) (collPts : Option (List Q3)) :
    List BmEntry × Except BmErr BmRet :=
  if resolution = 0 then (bm, Except.error BmErr.resolutionZero)
  else
    match bmNearest bm posePt with
    | none => (bm, Except.error BmErr.emptyBaseMap)
    | some idDist =>
      let tsamples := spheres.map (fun sp => (T sp.1, sp.2))
      match goalPts.mapM (scorePoint tsamples resolution) with
      | none => (bm, Except.error BmErr.tooFewSamples)
      | some goalScored =>
        let goalIdx := goalScored.map Prod.fst
        let reachable := goalScored.map Prod.snd
        let collRes : Except BmErr (List ℚ) :=
          match collPts with
          | none => Except.ok []
          | some cps =>
            match cps.mapM (scorePoint tsamples resolution) with
            | none => Except.error BmErr.tooFewSamples
            | some cs => Except.ok (cs.map Prod.fst)
        match collRes with
        | Except.error e => (bm, Except.error e)
        | Except.ok collIdx =>
          let riM : Option ℚ :=
            match collPts with
            | none => pyMean goalIdx
            | some _ => riMeanCode goalIdx collIdx
          match riM with
          | none => (bm, Except.error BmErr.statisticsError)
          | some ri =>
            if idDist.2 > (1/100 : ℚ) ^ 2 then
              (bm ++ [⟨posePt, some ri⟩],
               Except.ok ⟨bm.length, goalIdx, collIdx, reachable, ri⟩)
            else
              (setScore bm idDist.1 ri,
               Except.ok ⟨idDist.1, goalIdx, collIdx, reachable, ri⟩)

/-- Open connectors only ever close: a connector open in the second element
was already open in the first. -/
def elemMono (e e1 : Element) : Prop :=
  (e1.connector_1_state = true → e.connector_1_state = true) ∧
  (e1.connector_2_state = true → e.connector_2_state = true)

/-
Theorems.
-/

theorem mapIdxAux_length (f : Nat → α → α) :
    ∀ (i : Nat) (l : List α), (mapIdxAux f i l).length = l.length := by
  intro i l
  induction l generalizing i with
  | nil => rfl
  | cons a t ih => simp [mapIdxAux, ih]

theorem mapIdxAux_get? (f : Nat → α → α) :
    ∀ (l : List α) (i j : Nat),
      (mapIdxAux f i l).get? j = (l.get? j).map (f (i + j)) := by
  intro l
  induction l with
  | nil => intro i j; rfl
  | cons a t ih =>
    intro i j
    cases j with
    | zero => rfl
    | succ j =>
      have harith : i + 1 + j = i + (j + 1) := by omega
      simp only [mapIdxAux, List.get?_cons_succ, ih (i + 1) j, harith]

theorem elemAt_of_lt {s : AssemblyState} {k : Nat} (hk : k < s.nodes.length) :
    ∃ e, elemAt s k = some e := by
  unfold elemAt
  rcases h : s.nodes.get? k with _ | n
  · rw [List.get?_eq_none] at h
    omega
  · exact ⟨n.element, by simp [h]⟩

theorem flipAB_valid {flip : String}
    (hflip : flip = "AA" ∨ flip = "AB" ∨ flip = "BA" ∨ flip = "BB") (c : Int) :
    ∃ ab, flipAB flip c = some ab := by
  rcases hflip with h | h | h | h <;> subst h
  · exact ⟨(0, 0), rfl⟩
  · exact ⟨(0, c), rfl⟩
  · exact ⟨(c, 0), rfl⟩
  · exact ⟨(c, c), rfl⟩

theorem setElem_length (s : AssemblyState) (k : Nat) (f : Element → Element) :
    (setElem s k f).nodes.length = s.nodes.length := by
  unfold setElem
  exact mapIdxAux_length _ 0 s.nodes

theorem setElem_edges (s : AssemblyState) (k : Nat) (f : Element → Element) :
    (setElem s k f).edges = s.edges := rfl

theorem applyTable_length (s : AssemblyState) (p n : Nat) (t : Option (Nat × Nat)) :
    (applyTable s p n t).nodes.length = s.nodes.length := by
  cases t with
  | none => rfl
  | some pn => simp [applyTable, setElem_length]

theorem applyTable_edges (s : AssemblyState) (p n : Nat) (t : Option (Nat × Nat)) :
    (applyTable s p n t).edges = s.edges := by
  cases t with
  | none => rfl
  | some pn => rfl

theorem ucs_ok {s : AssemblyState} {ck : Nat} (flip : String) (ni ui : Nat)
    (hk : ck < s.nodes.length) (h2 : 2 ≤ s.nodes.length) :
    (update_connectors_states s ck flip ni ui).2 = none ∧
    (update_connectors_states s ck flip ni ui).1.nodes.length = s.nodes.length ∧
    (update_connectors_states s ck flip ni ui).1.edges = s.edges := by
  obtain ⟨e, he⟩ := elemAt_of_lt hk
  unfold update_connectors_states
  rw [he]
  rw [if_neg (by omega)]
  by_cases hui : ui = 1
  · rw [if_pos hui]
    refine ⟨rfl, ?_, ?_⟩ <;>
    · simp only []
      split <;> split <;>
        simp [applyTable_length, applyTable_edges]
  · rw [if_neg hui]
    exact ⟨rfl, rfl, rfl⟩

theorem flipAB_AA (c : Int) : flipAB "AA" c = some (0, 0) := rfl

theorem flipAB_AB (c : Int) : flipAB "AB" c = some (0, c) := rfl

theorem flipAB_BA (c : Int) : flipAB "BA" c = some (c, 0) := rfl

theorem flipAB_BB (c : Int) : flipAB "BB" c = some (c, c) := rfl

theorem addEdge_nodes (s : AssemblyState) (u v : Nat) (tag : String) :
    (addEdge s u v tag).nodes = s.nodes := by
  unfold addEdge
  split <;> rfl

theorem map_eq_self_of_mem {α : Type _} {f : α → α} (l : List α)
    (h : ∀ e ∈ l, f e = e) : l.map f = l := by
  induction l with
  | nil => rfl
  | cons a t ih =>
    rw [List.map_cons, h a (List.mem_cons_self a t),
        ih (fun e he => h e (List.mem_cons_of_mem a he))]

theorem addEdge_not_found {s : AssemblyState} {u v : Nat} (tag : String)
    (h : ∀ e ∈ s.edges, e.u ≠ u ∨ e.v ≠ v) :
    addEdge s u v tag = { s with edges := s.edges ++ [⟨u, v, tag⟩] } := by
  have hfalse : (s.edges.any fun e => e.u == u && e.v == v) = false := by
    rw [List.any_eq_false]
    intro e he
    rcases h e he with h1 | h1 <;> simp [h1]
  unfold addEdge
  rw [hfalse, if_neg Bool.false_ne_true]

theorem addEdge_found_last {s : AssemblyState} {u v : Nat} (tag : String)
    (h : ∀ e ∈ s.edges, e.u ≠ u ∨ e.v ≠ v) :
    addEdge { s with edges := s.edges ++ [⟨u, v, tag⟩] } u v tag
      = { s with edges := s.edges ++ [⟨u, v, tag⟩] } := by
  have htrue : ((s.edges ++ [(⟨u, v, tag⟩ : EdgeRec)]).any
      fun e => e.u == u && e.v == v) = true := by
    rw [List.any_append]
    simp
  have hfix : ∀ e ∈ s.edges,
      (if e.u == u && e.v == v then { e with edge_to := tag } else e) = e := by
    intro e he
    rcases h e he with h1 | h1 <;> simp [h1]
  unfold addEdge
  dsimp only
  rw [htrue, if_pos rfl, List.map_append, map_eq_self_of_mem s.edges hfix]
  simp

theorem addRfNodeEdges_nodes (s : AssemblyState) (ck N : Nat) (pb : String)
    (og : Bool) (ui : Nat) (fi fe : AttrVal) (ne : Element) :
    (addRfNodeEdges s ck N pb og ui fi fe ne).nodes =
      s.nodes ++ [⟨ne, dictUpdate s.sharedDefault
        [("placed_by", AttrVal.str pb), ("on_ground", AttrVal.bool og),
         ("frame_id", fi), ("frame_est", fe), ("is_built", AttrVal.bool true)]⟩] := by
  unfold addRfNodeEdges
  dsimp only
  split
  · rw [addEdge_nodes]
    rfl
  · rw [addEdge_nodes, addEdge_nodes]
    rfl

theorem addRfNodeEdges_edges (s : AssemblyState) (ck N : Nat) (pb : String)
    (og : Bool) (ui : Nat) (fi fe : AttrVal) (ne : Element)
    (hv : ∀ e ∈ s.edges, e.v ≠ N) :
    (addRfNodeEdges s ck N pb og ui fi fe ne).edges =
      s.edges ++ (if ui = 0 then [⟨ck, N, "neighbour"⟩]
                  else if ck = N - 1 then [⟨N - 1, N, "parent"⟩]
                  else [⟨N - 1, N, "parent"⟩, ⟨ck, N, "parent"⟩]) := by
  unfold addRfNodeEdges
  dsimp only
  set s1 := (add_element s ne none
    [("placed_by", AttrVal.str pb), ("on_ground", AttrVal.bool og),
     ("frame_id", fi), ("frame_est", fe), ("is_built", AttrVal.bool true)]).1 with hs1
  have he1 : s1.edges = s.edges := by
    rw [hs1]
    rfl
  have hv1 : ∀ e ∈ s1.edges, e.v ≠ N := by
    rw [he1]
    exact hv
  by_cases hui : ui = 0
  · rw [if_pos hui, if_pos hui,
        addEdge_not_found "neighbour" (fun e he => Or.inr (hv1 e he))]
    dsimp only
    rw [he1]
  · rw [if_neg hui, if_neg hui,
        addEdge_not_found "parent" (fun e he => Or.inr (hv1 e he))]
    by_cases hck : ck = N - 1
    · rw [if_pos hck]
      subst hck
      rw [addEdge_found_last "parent" (fun e he => Or.inr (hv1 e he))]
      dsimp only
      rw [he1]
    · rw [if_neg hck]
      rw [addEdge_not_found "parent" ?_]
      · dsimp only
        rw [he1, List.append_assoc]
        rfl
      · intro e he
        simp only [List.mem_append, List.mem_singleton] at he
        rcases he with he | he
        · exact Or.inr (hv1 e he)
        · subst he
          exact Or.inl (fun hh => hck hh.symm)

theorem addRfNodeEdges_length (s : AssemblyState) (ck N : Nat) (pb : String)
    (og : Bool) (ui : Nat) (fi fe : AttrVal) (ne : Element) :
    (addRfNodeEdges s ck N pb og ui fi fe ne).nodes.length = s.nodes.length + 1 := by
  rw [addRfNodeEdges_nodes]
  simp

theorem addRfFinish_length (s3 : AssemblyState) (ck ui : Nat) :
    (addRfFinish s3 ck ui).nodes.length = s3.nodes.length := by
  unfold addRfFinish
  dsimp only
  split
  · split <;> exact setElem_length ..
  · rfl

theorem addRfFinish_edges (s3 : AssemblyState) (ck ui : Nat) :
    (addRfFinish s3 ck ui).edges = s3.edges := by
  unfold addRfFinish
  dsimp only
  split
  · split <;> exact setElem_edges ..
  · rfl

theorem addRfInsert_ok (s : AssemblyState) (ck : Nat) (flip pb : String)
    (og : Bool) (ui : Nat) (fi fe : AttrVal) (ne : Element)
    (hk : ck < s.nodes.length) :
    (addRfInsert s ck s.nodes.length flip pb og ui fi fe ne).2 = none ∧
    (addRfInsert s ck s.nodes.length flip pb og ui fi fe ne).1.nodes.length =
      s.nodes.length + 1 := by
  have hlen2 : (addRfNodeEdges s ck s.nodes.length pb og ui fi fe ne).nodes.length =
      s.nodes.length + 1 := addRfNodeEdges_length ..
  have hk2 : ck < (addRfNodeEdges s ck s.nodes.length pb og ui fi fe ne).nodes.length := by
    omega
  have h22 : 2 ≤ (addRfNodeEdges s ck s.nodes.length pb og ui fi fe ne).nodes.length := by
    omega
  obtain ⟨hz, hulen, _⟩ := ucs_ok flip s.nodes.length ui hk2 h22
  unfold addRfInsert
  dsimp only
  rw [hz]
  refine ⟨rfl, ?_⟩
  rw [addRfFinish_length, hulen, hlen2]

theorem addRfInsert_edges (s : AssemblyState) (ck : Nat) (flip pb : String)
    (og : Bool) (ui : Nat) (fi fe : AttrVal) (ne : Element)
    (hk : ck < s.nodes.length)
    (hv : ∀ e ∈ s.edges, e.v ≠ s.nodes.length) :
    (addRfInsert s ck s.nodes.length flip pb og ui fi fe ne).1.edges =
      s.edges ++ (if ui = 0 then [⟨ck, s.nodes.length, "neighbour"⟩]
                  else if ck = s.nodes.length - 1 then
                    [⟨s.nodes.length - 1, s.nodes.length, "parent"⟩]
                  else [⟨s.nodes.length - 1, s.nodes.length, "parent"⟩,
                        ⟨ck, s.nodes.length, "parent"⟩]) := by
  have hlen2 : (addRfNodeEdges s ck s.nodes.length pb og ui fi fe ne).nodes.length =
      s.nodes.length + 1 := addRfNodeEdges_length ..
  have hk2 : ck < (addRfNodeEdges s ck s.nodes.length pb og ui fi fe ne).nodes.length := by
    omega
  have h22 : 2 ≤ (addRfNodeEdges s ck s.nodes.length pb og ui fi fe ne).nodes.length := by
    omega
  obtain ⟨hz, _, huedg⟩ := ucs_ok flip s.nodes.length ui hk2 h22
  unfold addRfInsert
  dsimp only
  rw [hz]
  rw [addRfFinish_edges, huedg, addRfNodeEdges_edges]
  exact hv

theorem addRf_ok (s : AssemblyState) (ck : Nat) (flip pb : String)
    (og : Bool) (ui : Nat) (fi fe : AttrVal)
    (hk : ck < s.nodes.length)
    (hflip : flip = "AA" ∨ flip = "AB" ∨ flip = "BA" ∨ flip = "BB") :
    (add_rf_unit_element s ck flip pb og ui fi fe).2 = none ∧
    (add_rf_unit_element s ck flip pb og ui fi fe).1.nodes.length =
      s.nodes.length + 1 := by
  obtain ⟨e, he⟩ := elemAt_of_lt hk
  unfold add_rf_unit_element
  rw [he]
  dsimp only
  rcases hflip with h | h | h | h <;> subst h
  · rw [flipAB_AA]
    exact addRfInsert_ok s ck "AA" pb og ui fi fe e hk
  · rw [flipAB_AB]
    exact addRfInsert_ok s ck "AB" pb og ui fi fe e hk
  · rw [flipAB_BA]
    exact addRfInsert_ok s ck "BA" pb og ui fi fe e hk
  · rw [flipAB_BB]
    exact addRfInsert_ok s ck "BB" pb og ui fi fe e hk

theorem addRf_edges (s : AssemblyState) (ck : Nat) (flip pb : String)
    (og : Bool) (ui : Nat) (fi fe : AttrVal)
    (hk : ck < s.nodes.length)
    (hflip : flip = "AA" ∨ flip = "AB" ∨ flip = "BA" ∨ flip = "BB")
    (hv : ∀ e ∈ s.edges, e.v ≠ s.nodes.length) :
    (add_rf_unit_element s ck flip pb og ui fi fe).1.edges =
      s.edges ++ (if ui = 0 then [⟨ck, s.nodes.length, "neighbour"⟩]
                  else if ck = s.nodes.length - 1 then
                    [⟨s.nodes.length - 1, s.nodes.length, "parent"⟩]
                  else [⟨s.nodes.length - 1, s.nodes.length, "parent"⟩,
                        ⟨ck, s.nodes.length, "parent"⟩]) := by
  obtain ⟨e, he⟩ := elemAt_of_lt hk
  unfold add_rf_unit_element
  rw [he]
  dsimp only
  rcases hflip with h | h | h | h <;> subst h
  · rw [flipAB_AA]
    exact addRfInsert_edges s ck "AA" pb og ui fi fe e hk hv
  · rw [flipAB_AB]
    exact addRfInsert_edges s ck "AB" pb og ui fi fe e hk hv
  · rw [flipAB_BA]
    exact addRfInsert_edges s ck "BA" pb og ui fi fe e hk hv
  · rw [flipAB_BB]
    exact addRfInsert_edges s ck "BB" pb og ui fi fe e hk hv

/-- C5 counterexample: on a one-element assembly with an open connector,
`current_key = 0` coincides with the previously added node's key
`N - 1 = 0`, and a `unit_index = 1` placement ends with exactly ONE
`parent` edge, not the two the claim demands: compas `add_edge` stores
edges by ordered key pair (`edge[u][v]`), so `add_edge(N-1, N)` and
`add_edge(current_key, N)` both target the pair `(0, 1)` and the second
call merges into the first. -/
theorem add_rf_aliased_parent_edge_merge_cex :
    (add_rf_unit_element ⟨[⟨⟨true, true⟩, []⟩], [], []⟩ 0 "AA" "human" false 1
        AttrVal.null AttrVal.null).2 = none ∧
    (add_rf_unit_element ⟨[⟨⟨true, true⟩, []⟩], [], []⟩ 0 "AA" "human" false 1
        AttrVal.null AttrVal.null).1.nodes.length = 2 ∧
    (add_rf_unit_element ⟨[⟨⟨true, true⟩, []⟩], [], []⟩ 0 "AA" "human" false 1
        AttrVal.null AttrVal.null).1.edges = [⟨0, 1, "parent"⟩] := by
  refine ⟨rfl, rfl, rfl⟩

/-- C5 (amended): for every valid flip code, either actor, and an assembly
whose current element exists and has at least one open connector (and whose
existing edges reference existing node keys, the graph invariant), one call
to `add_rf_unit_element` succeeds and adds exactly one node; for
`unit_index = 0` it adds one `neighbour` edge from `current_key` to the new
key `N`; for `unit_index = 1` with `current_key ≠ N - 1` it adds exactly
the two documented `parent` edges, one from the previously added node's
key `N - 1` and one from `current_key`, both to `N`; for `unit_index = 1`
with `current_key = N - 1` the two `add_edge` calls target the same
ordered key pair and merge, leaving exactly one `parent` edge
`(N - 1, N)`. -/
theorem add_rf_unit_node_and_edges_with_merge
    (s : AssemblyState) (ck : Nat) (flip pb : String) (og : Bool) (ui : Nat)
    (fi fe : AttrVal)
    (hk : ck < s.nodes.length)
    (hflip : flip = "AA" ∨ flip = "AB" ∨ flip = "BA" ∨ flip = "BB")
    (hpb : pb = "robot" ∨ pb = "human")
    (hopen : connOpen1 s ck = true ∨ connOpen2 s ck = true)
    (hui : ui = 0 ∨ ui = 1)
    (hedges : ∀ e ∈ s.edges, e.v < s.nodes.length) :
    (add_rf_unit_element s ck flip pb og ui fi fe).2 = none ∧
    (add_rf_unit_element s ck flip pb og ui fi fe).1.nodes.length =
      s.nodes.length + 1 ∧
    (ui = 0 → (add_rf_unit_element s ck flip pb og ui fi fe).1.edges =
      s.edges ++ [⟨ck, s.nodes.length, "neighbour"⟩]) ∧
    (ui = 1 → ck ≠ s.nodes.length - 1 →
      (add_rf_unit_element s ck flip pb og ui fi fe).1.edges =
        s.edges ++ [⟨s.nodes.length - 1, s.nodes.length, "parent"⟩,
                    ⟨ck, s.nodes.length, "parent"⟩]) ∧
    (ui = 1 → ck = s.nodes.length - 1 →
      (add_rf_unit_element s ck flip pb og ui fi fe).1.edges =
        s.edges ++ [⟨s.nodes.length - 1, s.nodes.length, "parent"⟩]) := by
  have hv : ∀ e ∈ s.edges, e.v ≠ s.nodes.length :=
    fun e he => Nat.ne_of_lt (hedges e he)
  obtain ⟨h1, h2⟩ := addRf_ok s ck flip pb og ui fi fe hk hflip
  have h3 := addRf_edges s ck flip pb og ui fi fe hk hflip hv
  refine ⟨h1, h2, ?_, ?_, ?_⟩
  · intro h0
    rw [h3, if_pos h0]
  · intro h1u hne
    subst h1u
    rw [h3, if_neg (by omega), if_neg hne]
  · intro h1u heq
    subst h1u
    rw [h3, if_neg (by omega), if_pos heq]

/-- Witness for C5 (amended): a two-element assembly with open connectors,
`current_key = 0` (distinct from the previously added node's key 1),
`flip = AA`, `placed_by = human`, `unit_index = 1`. -/
theorem add_rf_unit_node_and_edges_with_merge_witness :
    (add_rf_unit_element ⟨[⟨⟨true, true⟩, []⟩, ⟨⟨true, true⟩, []⟩], [], []⟩ 0
        "AA" "human" false 1 AttrVal.null AttrVal.null).2 = none ∧
    (add_rf_unit_element ⟨[⟨⟨true, true⟩, []⟩, ⟨⟨true, true⟩, []⟩], [], []⟩ 0
        "AA" "human" false 1 AttrVal.null AttrVal.null).1.nodes.length = 2 + 1 ∧
    ((1 : Nat) = 0 → (add_rf_unit_element
        ⟨[⟨⟨true, true⟩, []⟩, ⟨⟨true, true⟩, []⟩], [], []⟩ 0
        "AA" "human" false 1 AttrVal.null AttrVal.null).1.edges =
      [] ++ [⟨0, 2, "neighbour"⟩]) ∧
    ((1 : Nat) = 1 → (0 : Nat) ≠ 2 - 1 → (add_rf_unit_element
        ⟨[⟨⟨true, true⟩, []⟩, ⟨⟨true, true⟩, []⟩], [], []⟩ 0
        "AA" "human" false 1 AttrVal.null AttrVal.null).1.edges =
      [] ++ [⟨2 - 1, 2, "parent"⟩, ⟨0, 2, "parent"⟩]) ∧
    ((1 : Nat) = 1 → (0 : Nat) = 2 - 1 → (add_rf_unit_element
        ⟨[⟨⟨true, true⟩, []⟩, ⟨⟨true, true⟩, []⟩], [], []⟩ 0
        "AA" "human" false 1 AttrVal.null AttrVal.null).1.edges =
      [] ++ [⟨2 - 1, 2, "parent"⟩]) :=
  add_rf_unit_node_and_edges_with_merge
    ⟨[⟨⟨true, true⟩, []⟩, ⟨⟨true, true⟩, []⟩], [], []⟩ 0 "AA" "human" false 1
    AttrVal.null AttrVal.null (by decide) (Or.inl rfl) (Or.inr rfl)
    (Or.inl (by decide)) (Or.inr rfl)
    (fun e he => absurd he (List.not_mem_nil e))

/-- C2 counterexample: on a one-element assembly whose element has both
connector states false, `add_rf_unit_element` does not fail and does not
leave the graph unmodified — it returns no error and the node count grows
from 1 to 2 (the open-connector selection on lines 199–204 is a plain
`if`/`else` that silently falls back to connector 2). -/
theorem add_rf_no_open_connector_cex :
    connOpen1 (⟨[⟨⟨false, false⟩, []⟩], [], []⟩ : AssemblyState) 0 = false ∧
    connOpen2 (⟨[⟨⟨false, false⟩, []⟩], [], []⟩ : AssemblyState) 0 = false ∧
    (add_rf_unit_element ⟨[⟨⟨false, false⟩, []⟩], [], []⟩ 0 "AA" "human" false 0
        AttrVal.null AttrVal.null).2 = none ∧
    (add_rf_unit_element ⟨[⟨⟨false, false⟩, []⟩], [], []⟩ 0 "AA" "human" false 0
        AttrVal.null AttrVal.null).1.nodes.length = 2 := by
  refine ⟨rfl, rfl, rfl, rfl⟩

/-- C2 (amended): for every assembly whose element at `current_key` has
both `connector_1_state` and `connector_2_state` false, a call to
`add_rf_unit_element` with a valid flip code does not fail: it silently
falls back to the connector-2 branch and performs the normal insertion,
returning no error and adding exactly one node. -/
theorem add_rf_no_open_connector_silently_proceeds
    (s : AssemblyState) (ck : Nat) (flip pb : String) (og : Bool) (ui : Nat)
    (fi fe : AttrVal)
    (hk : ck < s.nodes.length)
    (hflip : flip = "AA" ∨ flip = "AB" ∨ flip = "BA" ∨ flip = "BB")
    (hclosed : connOpen1 s ck = false ∧ connOpen2 s ck = false) :
    (add_rf_unit_element s ck flip pb og ui fi fe).2 = none ∧
    (add_rf_unit_element s ck flip pb og ui fi fe).1.nodes.length =
      s.nodes.length + 1 := by
  exact addRf_ok s ck flip pb og ui fi fe hk hflip

/-- Witness for C2 (amended): the one-element assembly with both connectors
closed. -/
theorem add_rf_no_open_connector_silently_proceeds_witness :
    (add_rf_unit_element ⟨[⟨⟨false, false⟩, []⟩], [], []⟩ 0 "AA" "human" false 0
        AttrVal.null AttrVal.null).2 = none ∧
    (add_rf_unit_element ⟨[⟨⟨false, false⟩, []⟩], [], []⟩ 0 "AA" "human" false 0
        AttrVal.null AttrVal.null).1.nodes.length = 1 + 1 :=
  add_rf_no_open_connector_silently_proceeds
    ⟨[⟨⟨false, false⟩, []⟩], [], []⟩ 0 "AA" "human" false 0 AttrVal.null AttrVal.null
    (by decide) (Or.inl rfl) ⟨by decide, by decide⟩

/-- C8: for every flip argument outside `{AA, AB, BA, BB}` (on an existing
current key), `add_rf_unit_element` rejects the call — the flip table
assigns neither `a` nor `b`, so the translation construction raises
`UnboundLocalError` — and the returned state is exactly the input state:
no node or edge was touched. -/
theorem add_rf_invalid_flip_rejected
    (s : AssemblyState) (ck : Nat) (flip pb : String) (og : Bool) (ui : Nat)
    (fi fe : AttrVal)
    (hk : ck < s.nodes.length)
    (hflip : flip ≠ "AA" ∧ flip ≠ "AB" ∧ flip ≠ "BA" ∧ flip ≠ "BB") :
    add_rf_unit_element s ck flip pb og ui fi fe = (s, some RfErr.unboundLocal) := by
  obtain ⟨e, he⟩ := elemAt_of_lt hk
  unfold add_rf_unit_element
  rw [he]
  dsimp only
  have hnone : flipAB flip (if e.connector_1_state = true then -1 else 1) = none := by
    unfold flipAB
    rw [if_neg hflip.1, if_neg hflip.2.1, if_neg hflip.2.2.1, if_neg hflip.2.2.2]
  rw [hnone]

/-- Witness for C8: the flip code `"XX"` on a one-element assembly. -/
theorem add_rf_invalid_flip_rejected_witness :
    add_rf_unit_element ⟨[⟨⟨true, true⟩, []⟩], [], []⟩ 0 "XX" "robot" false 0
        AttrVal.null AttrVal.null
      = (⟨[⟨⟨true, true⟩, []⟩], [], []⟩, some RfErr.unboundLocal) :=
  add_rf_invalid_flip_rejected ⟨[⟨⟨true, true⟩, []⟩], [], []⟩ 0 "XX" "robot"
    false 0 AttrVal.null AttrVal.null (by decide)
    ⟨by decide, by decide, by decide, by decide⟩

/-- C1 (code-bug evaluation): a scan in which the running resultant lies
inside the support footprint at every step (the membership oracle is
constantly true), run with the default `allow_temp_support=True`.  The
claim says the result is stable with the temporary-support window never
latched; the code instead latches the window at step 0 (grant index
`some 0`) and returns `static_equilibrium = false` — lines 441–450 test
`se_loc != True` / `se_loc != False` with the inside/outside sense
inverted, contradicting the comment on line 407 that the resultant "shall
lie on" the support area. -/
theorem static_equilibrium_all_inside_eval :
    static_equilibrium_check (fun _ _ => true) [((0, 0), 1), ((0, 0), 1)] true
      = Except.ok (false, (0, 0), some 0) := by
  norm_num [static_equilibrium_check, seLoop, seStep]

/-- C7 (code-bug evaluation): a call with `allow_temp_support=False` on a
one-entry scan whose resultant lies outside the footprint (the membership
oracle is constantly false).  The claim says the function returns
`static_equilibrium = False`; the code instead raises
`UnboundLocalError` — `s_glob` is assigned only under
`allow_temp_support == True` (lines 393–394), and line 438 reads it
unconditionally on the first iteration. -/
theorem static_equilibrium_no_temp_support_raises :
    static_equilibrium_check (fun _ _ => false) [((5, 5), 1)] false
      = Except.error SeErr.sGlobUnbound := by
  norm_num [static_equilibrium_check, seLoop, seStep]

/-- C9: for every call to `get_reuleaux_index_by_base_pose` whose
reachability dataset has `resolution = 0`, the `ValueError` precondition
check on line 43 fires before any scoring: no score is returned and the
base-pose map is returned exactly as it was. -/
theorem reuleaux_resolution_zero_rejected (bm : List BmEntry) (posePt : Q3)
    (T : Q3 → Q3) (spheres : List (Q3 × ℚ)) (goalPts : List Q3)
    (collPts : Option (List Q3)) :
    get_reuleaux_index_by_base_pose bm posePt T spheres 0 goalPts collPts
      = (bm, Except.error BmErr.resolutionZero) := by
  unfold get_reuleaux_index_by_base_pose
  rw [if_pos rfl]

/-- C10: `add_element`'s `attr_dict={}` default is one shared mutable dict:
a first call that passes only the keyword attribute `placed_by` mutates it,
and a second call that passes no attributes at all still stores
`placed_by = "human"` on its node — node attributes of calls relying on
the default are not independent. -/
theorem add_element_shared_default_leaks :
    dictGet ((((add_element (add_element ⟨[], [], []⟩ ⟨true, true⟩ none
          [("placed_by", AttrVal.str "human")]).1 ⟨true, true⟩ none []).1.nodes.get? 1).map
        NodeRec.attrs).getD []) "placed_by" = some (AttrVal.str "human") := by
  rfl

/-- C3 counterexample: a dataset with `resolution = 1` and two samples at
the origin, and a target at `(1.41450, 0, 0)`.  Both nearest samples lie
farther than `resolution·√2` from the target (their squared distance
`8003241/4000000` exceeds `2·resolution²`), so the claim as stated demands
score `0` and unreachable; the code's threshold is `resolution·1.415`
(line 64), which admits the point: it scores the nearest `ri = 5` and is
marked reachable. -/
theorem score_point_sqrt2_threshold_cex :
    nearestTwo [((0 : ℚ), (0 : ℚ), (0 : ℚ)), (0, 0, 0)] (2829/2000, 0, 0)
      = some ((0, 8003241/4000000), (1, 8003241/4000000)) ∧
    2 * (1 : ℚ) ^ 2 < 8003241/4000000 ∧
    scorePoint [(((0 : ℚ), (0 : ℚ), (0 : ℚ)), 5), ((0, 0, 0), 5)] 1 (2829/2000, 0, 0)
      = some (5, true) := by
  refine ⟨?_, by norm_num, ?_⟩
  · norm_num [nearestTwo, dsq, List.enum, List.enumFrom]
  · norm_num [scorePoint, nearestTwo, dsq, ltDist, riAt, List.enum, List.enumFrom]

theorem elemMono_refl (e : Element) : elemMono e e := ⟨id, id⟩

theorem closeConn_elemMono (w : Nat) (e : Element) : elemMono e (closeConn w e) := by
  unfold elemMono closeConn
  split <;> simp

theorem rangeBody_elemMono (d1 d2 : Nat → ℚ) (k : Nat) (n : NodeRec) :
    elemMono n.element (rangeBody d1 d2 k n).element := by
  unfold rangeBody
  split
  · split
    · exact closeConn_elemMono 1 n.element
    · exact elemMono_refl _
  · split
    · split
      · exact closeConn_elemMono 2 n.element
      · exact elemMono_refl _
    · exact elemMono_refl _

theorem connMono_refl (s : AssemblyState) : ConnMono s s :=
  ⟨le_refl _, fun _ _ => ⟨id, id⟩⟩

theorem connMono_trans {s t u : AssemblyState}
    (h1 : ConnMono s t) (h2 : ConnMono t u) : ConnMono s u := by
  obtain ⟨l1, m1⟩ := h1
  obtain ⟨l2, m2⟩ := h2
  refine ⟨le_trans l1 l2, fun k hk => ?_⟩
  obtain ⟨a1, b1⟩ := m1 k hk
  obtain ⟨a2, b2⟩ := m2 k (lt_of_lt_of_le hk l1)
  exact ⟨fun h => a1 (a2 h), fun h => b1 (b2 h)⟩

theorem connMono_of_nodes_eq {s t : AssemblyState} (h : s.nodes = t.nodes) :
    ConnMono s t := by
  refine ⟨by rw [h], fun k _ => ?_⟩
  unfold connOpen1 connOpen2
  rw [h]
  exact ⟨id, id⟩

theorem connMono_mapIdxAux (s : AssemblyState) (g : Nat → NodeRec → NodeRec)
    (hg : ∀ k n, elemMono n.element (g k n).element)
    (t : AssemblyState) (ht : t.nodes = mapIdxAux g 0 s.nodes) : ConnMono s t := by
  refine ⟨?_, fun j _ => ?_⟩
  · rw [ht, mapIdxAux_length]
  · unfold connOpen1 connOpen2
    rw [ht, mapIdxAux_get? g s.nodes 0 j]
    rcases h : s.nodes.get? j with _ | n
    · simp
    · simp only [Option.map_some', Option.getD_some]
      exact ⟨(hg (0 + j) n).1, (hg (0 + j) n).2⟩

theorem connMono_setElem (s : AssemblyState) (k : Nat) (f : Element → Element)
    (hf : ∀ e, elemMono e (f e)) : ConnMono s (setElem s k f) := by
  refine connMono_mapIdxAux s _ ?_ _ rfl
  intro j n
  by_cases hjk : j = k
  · rw [if_pos hjk]
    exact hf n.element
  · rw [if_neg hjk]
    exact elemMono_refl _

theorem connMono_applyTable (s : AssemblyState) (p n : Nat) (t : Option (Nat × Nat)) :
    ConnMono s (applyTable s p n t) := by
  cases t with
  | none => exact connMono_refl s
  | some pn =>
    exact connMono_trans
      (connMono_setElem s p _ (closeConn_elemMono pn.1))
      (connMono_setElem _ n _ (closeConn_elemMono pn.2))

theorem connMono_add_element (s : AssemblyState) (e : Element) (ad : Option Dict)
    (kw : Dict) : ConnMono s (add_element s e ad kw).1 := by
  have hx : ∃ x, (add_element s e ad kw).1.nodes = s.nodes ++ [x] := by
    cases ad <;> exact ⟨_, rfl⟩
  obtain ⟨x, hx⟩ := hx
  refine ⟨?_, fun k hk => ?_⟩
  · rw [hx]
    simp
  · unfold connOpen1 connOpen2
    rw [hx, List.get?_append hk]
    exact ⟨id, id⟩

theorem connMono_ucs (s : AssemblyState) (ck : Nat) (flip : String) (ni ui : Nat) :
    ConnMono s (update_connectors_states s ck flip ni ui).1 := by
  unfold update_connectors_states
  rcases h : elemAt s ck with _ | e
  · exact connMono_refl s
  · dsimp only
    by_cases h2 : s.nodes.length < 2
    · rw [if_pos h2]
      exact connMono_refl s
    · rw [if_neg h2]
      by_cases hui : ui = 1
      · rw [if_pos hui]
        dsimp only
        have hstep : ∀ (u : AssemblyState) (b : Bool) (p : Nat) (t : Option (Nat × Nat)),
            ConnMono u (if b = true then applyTable u p ni t else u) := by
          intro u b p t
          cases b
          · simp only [Bool.false_eq_true, if_false]
            exact connMono_refl u
          · simp only [if_true]
            exact connMono_applyTable u p ni t
        exact connMono_trans (hstep s _ _ _) (hstep _ _ _ _)
      · rw [if_neg hui]
        exact connMono_refl s

theorem connMono_addRfFinish (s3 : AssemblyState) (ck ui : Nat) :
    ConnMono s3 (addRfFinish s3 ck ui) := by
  unfold addRfFinish
  by_cases h : ui = 1
  · rw [if_pos h]
    dsimp only
    have hstep : ∀ b : Bool,
        ConnMono s3 (if b = true then setElem s3 ck (closeConn 1)
                     else setElem s3 ck (closeConn 2)) := by
      intro b
      cases b
      · simp only [Bool.false_eq_true, if_false]
        exact connMono_setElem _ _ _ (closeConn_elemMono 2)
      · simp only [if_true]
        exact connMono_setElem _ _ _ (closeConn_elemMono 1)
    exact hstep _
  · rw [if_neg h]
    exact connMono_refl _

theorem connMono_addRfNodeEdges (s : AssemblyState) (ck N : Nat) (pb : String)
    (og : Bool) (ui : Nat) (fi fe : AttrVal) (ne : Element) :
    ConnMono s (addRfNodeEdges s ck N pb og ui fi fe ne) := by
  unfold addRfNodeEdges
  dsimp only
  have h1 := connMono_add_element s ne none
    [("placed_by", AttrVal.str pb), ("on_ground", AttrVal.bool og),
     ("frame_id", fi), ("frame_est", fe), ("is_built", AttrVal.bool true)]
  refine connMono_trans h1 (connMono_of_nodes_eq ?_)
  split
  · rw [addEdge_nodes]
  · rw [addEdge_nodes, addEdge_nodes]

theorem connMono_addRfInsert (s : AssemblyState) (ck N : Nat) (flip pb : String)
    (og : Bool) (ui : Nat) (fi fe : AttrVal) (ne : Element) :
    ConnMono s (addRfInsert s ck N flip pb og ui fi fe ne).1 := by
  unfold addRfInsert
  dsimp only
  have hmid : ConnMono s
      (update_connectors_states (addRfNodeEdges s ck N pb og ui fi fe ne)
        ck flip N ui).1 :=
    connMono_trans (connMono_addRfNodeEdges s ck N pb og ui fi fe ne)
      (connMono_ucs _ ck flip N ui)
  rcases hu : (update_connectors_states (addRfNodeEdges s ck N pb og ui fi fe ne)
      ck flip N ui).2 with _ | er
  · exact connMono_trans hmid (connMono_addRfFinish _ ck ui)
  · exact hmid

theorem connMono_addRf (s : AssemblyState) (ck : Nat) (flip pb : String)
    (og : Bool) (ui : Nat) (fi fe : AttrVal) :
    ConnMono s (add_rf_unit_element s ck flip pb og ui fi fe).1 := by
  unfold add_rf_unit_element
  rcases h : elemAt s ck with _ | e
  · exact connMono_refl s
  · dsimp only
    rcases hf : flipAB flip (if e.connector_1_state = true then -1 else 1) with _ | ab
    · exact connMono_refl s
    · exact connMono_addRfInsert s ck s.nodes.length flip pb og ui fi fe e

theorem connMono_closeRf (s : AssemblyState) (ck : Nat) (flip : String)
    (afi fe : AttrVal) : ConnMono s (close_rf_unit s ck flip afi fe).1 := by
  unfold close_rf_unit
  dsimp only
  have h1 := connMono_addRf s ck flip "robot" false 0 AttrVal.null AttrVal.null
  rcases hr : (add_rf_unit_element s ck flip "robot" false 0
      AttrVal.null AttrVal.null).2 with _ | er
  · exact connMono_trans h1 (connMono_addRf _ ck flip "human" false 1 afi fe)
  · exact h1

theorem connMono_rangeFilter (s : AssemblyState) (d1 d2 : Nat → ℚ) :
    ConnMono s (range_filter s d1 d2) :=
  connMono_mapIdxAux s (rangeBody d1 d2) (rangeBody_elemMono d1 d2) _ rfl

theorem connMono_applyOp (op : SessionOp) (s : AssemblyState) :
    ConnMono s (applyOp op s) := by
  cases op with
  | addRf ck f pb og ui fi fe => exact connMono_addRf s ck f pb og ui fi fe
  | closeRf ck f afi fe => exact connMono_closeRf s ck f afi fe
  | updateConn ck f ni ui => exact connMono_ucs s ck f ni ui
  | rangeFilter d1 d2 => exact connMono_rangeFilter s d1 d2

theorem connMono_runSession (ops : List SessionOp) :
    ∀ s : AssemblyState, ConnMono s (runSession ops s) := by
  induction ops with
  | nil => intro s; exact connMono_refl s
  | cons op ops ih =>
    intro s
    exact connMono_trans (connMono_applyOp op s) (ih (applyOp op s))

/-- C6: connector monotonicity.  Over every build session — an arbitrary
sequence of `add_rf_unit_element`, `close_rf_unit`,
`update_connectors_states` and `range_filter` operations with arbitrary
arguments — and between any two points in time of that session, no
element's connector state ever changes from closed (false) back to open
(true): a connector open later was already open earlier, on every node
present earlier. -/
theorem connector_states_never_reopen (ops more : List SessionOp)
    (s : AssemblyState) :
    ConnMono (runSession ops s) (runSession (ops ++ more) s) := by
  have h : runSession (ops ++ more) s = runSession more (runSession ops s) := by
    unfold runSession
    exact List.foldl_append _ _ _ _
  rw [h]
  exact connMono_runSession more (runSession ops s)

/-- C3 (amended): for every target point scored by the per-point rule of
`get_reuleaux_index_by_base_pose` (its `scorePoint`), with the code's
threshold `resolution × 1.415` in place of the spec's `resolution × √2`:
if both of its two nearest transformed samples lie strictly within
`resolution × 1.415` of the point, its scored index is the nearest
sample's `ri` and it is marked reachable; if either of the two nearest
samples lies at distance `≥ resolution × 1.415`, its scored index is `0`
and it is marked unreachable.  Distances enter as squares: for
`resolution > 0`, `d < resolution·1.415 ↔ d² < (resolution·1.415)²`. -/
theorem score_point_threshold_1415 (samples : List (Q3 × ℚ)) (res : ℚ) (pt : Q3)
    (n0 n1 : Nat × ℚ) (hres : 0 < res)
    (hnn : nearestTwo (samples.map Prod.fst) pt = some (n0, n1)) :
    (n0.2 < (res * 1.415) ^ 2 ∧ n1.2 < (res * 1.415) ^ 2 →
      scorePoint samples res pt = some (riAt samples n0.1, true)) ∧
    ((res * 1.415) ^ 2 ≤ n0.2 ∨ (res * 1.415) ^ 2 ≤ n1.2 →
      scorePoint samples res pt = some (0, false)) := by
  have hpos : 0 < res * 1.415 := by positivity
  unfold scorePoint
  rw [hnn]
  dsimp only
  constructor
  · intro hin
    rw [if_pos ⟨⟨hpos, hin.1⟩, ⟨hpos, hin.2⟩⟩]
  · intro hout
    rw [if_neg ?_]
    rcases hout with hout | hout
    · exact fun hcon => absurd hcon.1.2 (not_lt.mpr hout)
    · exact fun hcon => absurd hcon.2.2 (not_lt.mpr hout)

/-- Witness for C3 (amended): two samples, one at the target (squared
distance 0) and one at squared distance 1, resolution 1; both are within
`1.415`, so the target inherits the nearest sample's index. -/
theorem score_point_threshold_1415_witness :
    scorePoint [(((0 : ℚ), (0 : ℚ), (0 : ℚ)), 3), ((1, 0, 0), 4)] 1 (0, 0, 0)
      = some (riAt [(((0 : ℚ), (0 : ℚ), (0 : ℚ)), 3), ((1, 0, 0), 4)] 0, true) :=
  (score_point_threshold_1415 [(((0 : ℚ), (0 : ℚ), (0 : ℚ)), 3), ((1, 0, 0), 4)]
      1 (0, 0, 0) (0, 0) (1, 1) (by norm_num)
      (by norm_num [nearestTwo, dsq, List.enum, List.enumFrom])).1
    ⟨by norm_num, by norm_num⟩

/-- C4: whenever a collision point cloud is supplied (and neither score
list is empty, so no `StatisticsError` is raised), the aggregate formula of
lines 83–86, `mean([goal_mean]·n_goal + [−collision_mean]·n_collision)`,
equals the reference equal-per-point-weight definition
`(sum of goal indices − sum of collision indices) / (n_goal + n_collision)`. -/
theorem ri_mean_equals_equal_weight_mean (gs cs : List ℚ)
    (hg : gs ≠ []) (hc : cs ≠ []) :
    riMeanCode gs cs = some (riMeanSpec gs cs) := by
  unfold riMeanCode pyMean riMeanSpec
  rw [if_neg hg, if_neg hc]
  dsimp only
  have hgn : gs.length ≠ 0 := fun h => hg (List.length_eq_zero.mp h)
  have hcn : cs.length ≠ 0 := fun h => hc (List.length_eq_zero.mp h)
  have hgq : (gs.length : ℚ) ≠ 0 := Nat.cast_ne_zero.mpr hgn
  have hcq : (cs.length : ℚ) ≠ 0 := Nat.cast_ne_zero.mpr hcn
  rw [if_neg (by simp [hgn])]
  congr 1
  rw [List.sum_append, List.sum_replicate, List.sum_replicate,
      List.length_append, List.length_replicate, List.length_replicate]
  rw [nsmul_eq_mul, nsmul_eq_mul]
  push_cast
  field_simp
  ring

/-- Witness for C4: goal indices `[1, 2, 3]` and collision indices
`[4, 5]`: the code's formula and the reference definition both give
`(6 − 9) / 5`. -/
theorem ri_mean_equals_equal_weight_mean_witness :
    riMeanCode [1, 2, 3] [4, 5] = some (riMeanSpec [1, 2, 3] [4, 5]) :=
  ri_mean_equals_equal_weight_mean [1, 2, 3] [4, 5]
    (List.cons_ne_nil 1 [2, 3]) (List.cons_ne_nil 4 [5])

end Cdf
